import Mathlib

/-!
Verification of the wine-label analysis pipeline of `cellarium_backend`
(`winemanager/services/label_analyzer.py`, `winemanager/serializers.py`,
`winemanager/views.py`) against its natural-language specification.

The Python code is shallowly embedded: machine floats that only ever hold
exact small values (`best_score / 100.0`, confidence scores) are modelled
as rationals, Python `str` truthiness is modelled explicitly, Python's
single-class exception `LabelAnalysisError` is modelled as a record of an
exception class and a message, and the two external effects (the PIL image
decode and the OpenAI chat completion) are modelled as oracle inputs, with
the number of upstream requests tracked so that short-circuit properties
are expressible.
-/

namespace Cellarium

/-- Python `str.lower()` as used by `_find_matching_region` (ASCII case
folding, written with a structural `List.map` so that proofs can evaluate
it on concrete inputs). -/
def strLower (s : String) : String := ⟨s.data.map Char.toLower⟩

/-- Python truthiness of an optional string: `None` and `""` are falsy.
Used for `if not region_name`, `if country_code`, `if not api_key`,
`if not content` and `if data["wine_type"]` in the source. -/
def strTruthy : Option String → Bool
  | none => false
  | some s => s != ""

/-- Modelled from the spec: a Region catalog record `{id, name, country}`.
The Django `Region` model is referenced by `_find_matching_region` and the
views but its class definition is not part of the analyzed source tree;
the spec describes it as a read-only `{id, name, country}` tuple. -/
structure Region where
  id : Nat
  name : String
  country : String
  deriving DecidableEq, Repr

/-- The dictionary `_find_matching_region` returns on a successful match:
`{"id": .., "name": .., "country": .., "match_score": best_score / 100.0}`. -/
structure MatchedRegion where
  id : Nat
  name : String
  country : String
  match_score : ℚ
  deriving DecidableEq, Repr

/-- The per-candidate score of the loop body of `_find_matching_region`:
`score = fuzz.ratio(region_name_lower, region.name.lower())`, then
`if country_code and str(region.country) == country_code:
score = min(100, score + 10)`.  The fuzzy similarity `fuzz.ratio`
(library code, 0–100 integer scale) is the parameter `sim`. -/
def regionScore (sim : String → String → Nat) (region_name_lower : String)
    (country_code : Option String) (r : Region) : Nat :=
  let score := sim region_name_lower (strLower r.name)
  match country_code with
  | some c => if c ≠ "" ∧ r.country = c then min 100 (score + 10) else score
  | none => score

/-- One iteration of the best-tracking loop of `_find_matching_region`:
`if score > best_score: best_score = score; best_match = region`. -/
def stepBest (score : Region → Nat) (acc : Option Region × Nat) (r : Region) :
    Option Region × Nat :=
  if acc.2 < score r then (some r, score r) else acc

/-- The running maximum of candidate scores, seeded with `s`; this is the
value of `best_score` after folding the loop of `_find_matching_region`. -/
def maxScoreFrom (score : Region → Nat) (s : Nat) (l : List Region) : Nat :=
  l.foldl (fun m r => max m (score r)) s

/-- `_find_matching_region(region_name, country_code)` over an explicit
candidate list (the database fetch that builds the candidate list is
factored out as `regionCandidates`): return `None` when `region_name` is
falsy, return `None` when the candidate list is empty, otherwise track the
single best-scoring candidate (strictly-greater replacement) and return it
with `match_score = best_score / 100.0` only when `best_score >= 80`. -/
def findMatchingRegion (sim : String → String → Nat)
    (region_name country_code : Option String) (candidates : List Region) :
    Option MatchedRegion :=
  if strTruthy region_name = false then none
  else if candidates = [] then none
  else
    let region_name_lower := strLower (region_name.getD "")
    match candidates.foldl (stepBest (regionScore sim region_name_lower country_code)) (none, 0) with
    | (some best_match, best_score) =>
        if 80 ≤ best_score then
          some ⟨best_match.id, best_match.name, best_match.country, (best_score : ℚ) / 100⟩
        else none
    | (none, _) => none

/-- The candidate list `_find_matching_region` assembles from the Region
catalog: with a truthy `country_code`, all same-country regions first,
then all other regions; otherwise all regions in catalog order. -/
def regionCandidates (regions : List Region) (country_code : Option String) :
    List Region :=
  if strTruthy country_code then
    regions.filter (fun r => r.country = country_code.getD "")
      ++ regions.filter (fun r => ¬ r.country = country_code.getD "")
  else regions

/-- Pixel dimensions of a decoded image. -/
structure Dim where
  width : Nat
  height : Nat
  deriving DecidableEq, Repr

/-- `_resize_image`: unchanged when both dimensions are at most `max_size`;
otherwise the longer side becomes `max_size` and the other side becomes
`int(side * (max_size / longer))`, modelled as the exact rational product
truncated to an integer (natural-number division). -/
def resizeDims (d : Dim) (max_size : Nat) : Dim :=
  if d.width ≤ max_size ∧ d.height ≤ max_size then d
  else if d.height < d.width then
    { width := max_size, height := d.height * max_size / d.width }
  else
    { width := d.width * max_size / d.height, height := max_size }

/-- The Python exception class of a raised error.  The analyzed source
defines exactly one service-level exception class, `LabelAnalysisError`;
`otherException` stands for any other class reaching the view's generic
`except Exception` handler (e.g. the DRF `ValidationError` raised by
`serializer.is_valid(raise_exception=True)`). -/
inductive ExcClass where
  | labelAnalysisError
  | otherException
  deriving DecidableEq, Repr

/-- A raised Python exception: its class and its message (`str(e)`). -/
structure PyError where
  cls : ExcClass
  msg : String
  deriving DecidableEq, Repr

/-- The per-field confidence object of the model's JSON response
(`ai_response["confidence"]`); every entry may be omitted. -/
structure ConfidenceMap where
  name : Option ℚ
  vintage : Option ℚ
  wine_type : Option ℚ
  country : Option ℚ
  region : Option ℚ
  grape_varieties : Option ℚ
  alcohol_percentage : Option ℚ
  deriving DecidableEq, Repr

/-- The empty confidence dictionary `{}`, the default of
`ai_response.get("confidence", {})`. -/
def ConfidenceMap.empty : ConfidenceMap :=
  ⟨none, none, none, none, none, none, none⟩

/-- The seven confidence field names of the response shape. -/
inductive ConfField where
  | name
  | vintage
  | wine_type
  | country
  | region
  | grape_varieties
  | alcohol_percentage
  deriving DecidableEq, Repr

/-- Look up one entry of a confidence dictionary by field name. -/
def ConfidenceMap.get : ConfidenceMap → ConfField → Option ℚ
  | c, ConfField.name => c.name
  | c, ConfField.vintage => c.vintage
  | c, ConfField.wine_type => c.wine_type
  | c, ConfField.country => c.country
  | c, ConfField.region => c.region
  | c, ConfField.grape_varieties => c.grape_varieties
  | c, ConfField.alcohol_percentage => c.alcohol_percentage

/-- The parsed JSON object returned by the vision model, as read by
`analyze_wine_label` via `ai_response.get(...)`: every field optional. -/
structure AiResponse where
  name : Option String
  vintage : Option Int
  wine_type : Option String
  country : Option String
  region : Option String
  grape_varieties : Option String
  alcohol_percentage : Option ℚ
  confidence : Option ConfidenceMap
  raw_text : Option String
  deriving DecidableEq, Repr

/-- Outcome of the one upstream chat-completion request of
`_call_openai_vision`, as classified by its `except` clauses:
a returned message content, `RateLimitError`, `APIConnectionError`,
`APIError`, or any other exception. -/
inductive UpstreamOutcome where
  | success (content : Option String)
  | rateLimit
  | connectionError
  | apiError (msg : String)
  | otherError (msg : String)
  deriving DecidableEq, Repr

/-- The markdown-fence cleanup of `_call_openai_vision`: strip, drop a
leading "```json" (7 chars), then a leading "```" (3 chars), then a
trailing "```" (3 chars), then strip again. -/
def stripCodeFences (content : String) : String :=
  let c0 := content.trim
  let c1 := if c0.startsWith "```json" then c0.drop 7 else c0
  let c2 := if c1.startsWith "```" then c1.drop 3 else c1
  let c3 := if c2.endsWith "```" then c2.dropRight 3 else c2
  c3.trim

/-- `_call_openai_vision`: fail fast (before any request) when the API key
is falsy; otherwise perform the one upstream request and map each failure
to a `LabelAnalysisError` with a fixed message.  A falsy message content
raises `LabelAnalysisError("Empty response from AI service")` inside the
`try` block, which the trailing `except Exception` clause itself catches
and re-wraps as `"Unexpected error: ..."`.  JSON parsing of the cleaned
content is the oracle `parseJson`; its failure is the `JSONDecodeError`
branch.  The second component counts upstream requests performed. -/
def callOpenaiVision (apiKey : Option String) (outcome : UpstreamOutcome)
    (parseJson : String → Option AiResponse) : Except PyError AiResponse × Nat :=
  if strTruthy apiKey = false then
    (Except.error ⟨ExcClass.labelAnalysisError, "OpenAI API key not configured"⟩, 0)
  else
    match outcome with
    | UpstreamOutcome.success content =>
        if strTruthy content = false then
          (Except.error ⟨ExcClass.labelAnalysisError,
              "Unexpected error: Empty response from AI service"⟩, 1)
        else
          match parseJson (stripCodeFences (content.getD "")) with
          | some resp => (Except.ok resp, 1)
          | none =>
              (Except.error ⟨ExcClass.labelAnalysisError, "Could not parse AI response"⟩, 1)
    | UpstreamOutcome.rateLimit =>
        (Except.error ⟨ExcClass.labelAnalysisError,
            "AI service rate limit exceeded. Please try again later."⟩, 1)
    | UpstreamOutcome.connectionError =>
        (Except.error ⟨ExcClass.labelAnalysisError, "AI service temporarily unavailable"⟩, 1)
    | UpstreamOutcome.apiError _ =>
        (Except.error ⟨ExcClass.labelAnalysisError, "AI service error occurred"⟩, 1)
    | UpstreamOutcome.otherError msg =>
        (Except.error ⟨ExcClass.labelAnalysisError, "Unexpected error: " ++ msg⟩, 1)

/-- The allowed `wine_type` values of `analyze_wine_label`
(`valid_types` in `label_analyzer.py`, with a proper U+00E9 accent). -/
def validTypes : List String := ["red", "white", "rosé", "sparkling"]

/-- The `data` object assembled by `analyze_wine_label`. -/
structure AnalysisData where
  name : Option String
  vintage : Option Int
  wine_type : Option String
  country : Option String
  grape_varieties : Option String
  alcohol_percentage : Option ℚ
  suggested_region_name : Option String
  matched_region : Option MatchedRegion
  deriving DecidableEq, Repr

/-- The dictionary returned by `analyze_wine_label` on success. -/
structure AnalysisResult where
  success : Bool
  data : AnalysisData
  confidence : ConfidenceMap
  raw_text : String
  deriving DecidableEq, Repr

/-- The oracle inputs of one `analyze_wine_label` invocation: whether the
uploaded bytes decode as a valid image (the `Image.open`/`verify`/reopen
block), the configured API key, the upstream outcome, the JSON parse
oracle, the Region catalog in database order, and the fuzzy similarity
function. -/
structure AnalyzeEnv where
  decoded : Bool
  apiKey : Option String
  outcome : UpstreamOutcome
  parseJson : String → Option AiResponse
  regions : List Region
  sim : String → String → Nat

/-- `analyze_wine_label`: reject an undecodable image with
`LabelAnalysisError("Invalid image format. ...")` before anything else
(the resize and base64 re-encoding of a valid image only feed the upstream
request payload, which the outcome oracle abstracts; `_resize_image`
itself is modelled by `resizeDims`); then call the vision API, coerce a
truthy `wine_type` outside `valid_types` to `None`, resolve the region,
and assemble the result.  The second component counts upstream requests. -/
def analyzeWineLabel (env : AnalyzeEnv) : Except PyError AnalysisResult × Nat :=
  if env.decoded = false then
    (Except.error ⟨ExcClass.labelAnalysisError,
        "Invalid image format. Supported formats: JPEG, PNG, WebP"⟩, 0)
  else
    match callOpenaiVision env.apiKey env.outcome env.parseJson with
    | (Except.error e, n) => (Except.error e, n)
    | (Except.ok resp, n) =>
        let wt :=
          if strTruthy resp.wine_type && !(validTypes.contains (resp.wine_type.getD "")) then
            none
          else resp.wine_type
        let matched := findMatchingRegion env.sim resp.region resp.country
            (regionCandidates env.regions resp.country)
        (Except.ok
          { success := true,
            data :=
              { name := resp.name,
                vintage := resp.vintage,
                wine_type := wt,
                country := resp.country,
                grape_varieties := resp.grape_varieties,
                alcohol_percentage := resp.alcohol_percentage,
                suggested_region_name := resp.region,
                matched_region := matched },
            confidence := resp.confidence.getD ConfidenceMap.empty,
            raw_text := resp.raw_text.getD "" }, n)

/-- The `wine_type` choice list of `LabelAnalysisDataSerializer` in
`serializers.py`.  Its third entry is the mojibake string "ros√©"
(U+221A U+00A9), not "rosé" (U+00E9): the bytes of the accented character
were decoded with the wrong codec when the file was written. -/
def serializerWineTypeChoices : List String :=
  ["red", "white", "ros√©", "sparkling"]

/-- DRF `CharField(allow_null=True, required=False)` on an optional string
value: `None` passes, the empty string fails unless `allow_blank=True`. -/
def charFieldValid (allowBlank : Bool) : Option String → Bool
  | none => true
  | some s => allowBlank || s != ""

/-- DRF `ChoiceField(choices=..., allow_null=True)` on the `wine_type`
value: `None` passes, a string must be one of the serializer's choices. -/
def wineTypeChoiceValid : Option String → Bool
  | none => true
  | some s => serializerWineTypeChoices.contains s

/-- Validation of the nested `MatchedRegionSerializer`: its `name` and
`country` are required `CharField`s without `allow_blank`. -/
def matchedRegionValid : Option MatchedRegion → Bool
  | none => true
  | some m => m.name != "" && m.country != ""

/-- `LabelAnalysisDataSerializer.is_valid` on a `data` object produced by
`analyzeWineLabel` (whose values already have the declared JSON types, so
only the string-level checks can fail): the blank-string checks of the
`CharField`s, the `wine_type` choice check, and the nested matched-region
checks. -/
def dataSerializerValid (d : AnalysisData) : Bool :=
  charFieldValid false d.name && wineTypeChoiceValid d.wine_type
    && charFieldValid false d.country && charFieldValid false d.grape_varieties
    && charFieldValid false d.suggested_region_name && matchedRegionValid d.matched_region

/-- `LabelAnalysisResponseSerializer.is_valid` on a result produced by
`analyzeWineLabel`: `success` is a boolean, every present confidence entry
is a number and missing ones have defaults, and `raw_text` allows blank,
so only the nested data serializer can reject. -/
def validateResult (r : AnalysisResult) : Bool :=
  dataSerializerValid r.data

/-- The fully-defaulted confidence object of the serialized response
(`LabelAnalysisConfidenceSerializer`, every field `FloatField(default=0.0)`). -/
structure SerializedConfidence where
  name : ℚ
  vintage : ℚ
  wine_type : ℚ
  country : ℚ
  region : ℚ
  grape_varieties : ℚ
  alcohol_percentage : ℚ
  deriving DecidableEq, Repr

/-- `LabelAnalysisConfidenceSerializer` applied to the pipeline's
confidence dictionary: each of the seven fields takes its present value,
or the declared default `0.0` when the entry is missing. -/
def serializeConfidence (c : ConfidenceMap) : SerializedConfidence :=
  ⟨c.name.getD 0, c.vintage.getD 0, c.wine_type.getD 0, c.country.getD 0,
   c.region.getD 0, c.grape_varieties.getD 0, c.alcohol_percentage.getD 0⟩

/-- Look up one field of the serialized confidence object. -/
def SerializedConfidence.get : SerializedConfidence → ConfField → ℚ
  | c, ConfField.name => c.name
  | c, ConfField.vintage => c.vintage
  | c, ConfField.wine_type => c.wine_type
  | c, ConfField.country => c.country
  | c, ConfField.region => c.region
  | c, ConfField.grape_varieties => c.grape_varieties
  | c, ConfField.alcohol_percentage => c.alcohol_percentage

/-- The HTTP statuses the `analyze_label` view can answer with. -/
inductive HttpStatus where
  | ok200
  | badRequest400
  | unprocessable422
  | internalError500
  deriving DecidableEq, Repr

/-- The serialized payload of a 200 response: the validated result with
the confidence defaults applied by the response serializer. -/
structure BoundaryResult where
  success : Bool
  data : AnalysisData
  confidence : SerializedConfidence
  raw_text : String
  deriving DecidableEq, Repr

/-- A response body of the `analyze_label` view: either an
`{"error": ...}` object or the serialized analysis payload. -/
inductive RespBody where
  | errorBody (msg : String)
  | payload (r : BoundaryResult)
  deriving DecidableEq, Repr

/-- The fixed message of the view's generic `except Exception` handler. -/
def unexpectedFailureMsg : String :=
  "An unexpected error occurred while analyzing the image."

/-- `WineViewSet.analyze_label`: 400 when no image file is in the request;
otherwise run `analyze_wine_label` and validate the result with the
response serializer — a `LabelAnalysisError` gives 422 with its message, a
serializer rejection raises a non-`LabelAnalysisError` exception caught by
the generic handler, which answers 500 with a fixed message. -/
def analyzeLabelView (hasImage : Bool) (env : AnalyzeEnv) : HttpStatus × RespBody :=
  if hasImage = false then
    (HttpStatus.badRequest400,
     RespBody.errorBody "No image provided. Please upload an image file.")
  else
    match (analyzeWineLabel env).1 with
    | Except.error e =>
        if e.cls = ExcClass.labelAnalysisError then
          (HttpStatus.unprocessable422, RespBody.errorBody e.msg)
        else
          (HttpStatus.internalError500, RespBody.errorBody unexpectedFailureMsg)
    | Except.ok res =>
        if validateResult res then
          (HttpStatus.ok200,
           RespBody.payload ⟨res.success, res.data, serializeConfidence res.confidence, res.raw_text⟩)
        else
          (HttpStatus.internalError500, RespBody.errorBody unexpectedFailureMsg)

/-! Concrete inputs used to exercise the theorems below. -/

/-- A model response that omits every field. -/
def aiRespEmpty : AiResponse :=
  { name := none, vintage := none, wine_type := none, country := none, region := none,
    grape_varieties := none, alcohol_percentage := none, confidence := none, raw_text := none }

/-- A model response whose `wine_type` is the empty string: present in the
JSON object, outside the allowed enumeration, but falsy in Python. -/
def respWtEmpty : AiResponse :=
  { aiRespEmpty with wine_type := some "" }

/-- A model response extracting the (properly accented) value "rosé". -/
def respRose : AiResponse :=
  { aiRespEmpty with wine_type := some "rosé" }

/-- A model response extracting "rose" without the accent. -/
def respRoseNoAccent : AiResponse :=
  { aiRespEmpty with wine_type := some "rose" }

/-- An invocation whose upload does not decode as an image. -/
def envBadImage : AnalyzeEnv :=
  { decoded := false, apiKey := some "k", outcome := UpstreamOutcome.success (some "x"),
    parseJson := fun _ => none, regions := [], sim := fun _ _ => 0 }

/-- A successful invocation returning `respWtEmpty`. -/
def envWtEmpty : AnalyzeEnv :=
  { decoded := true, apiKey := some "k", outcome := UpstreamOutcome.success (some "x"),
    parseJson := fun _ => some respWtEmpty, regions := [], sim := fun _ _ => 0 }

/-- A successful invocation returning `respRose`. -/
def envRose : AnalyzeEnv :=
  { decoded := true, apiKey := some "k", outcome := UpstreamOutcome.success (some "x"),
    parseJson := fun _ => some respRose, regions := [], sim := fun _ _ => 0 }

/-- A successful invocation returning `respRoseNoAccent`. -/
def envRoseNoAccent : AnalyzeEnv :=
  { decoded := true, apiKey := some "k", outcome := UpstreamOutcome.success (some "x"),
    parseJson := fun _ => some respRoseNoAccent, regions := [], sim := fun _ _ => 0 }

/-- The result `analyzeWineLabel` assembles for `envRose`. -/
def resRose : AnalysisResult :=
  { success := true,
    data := { name := none, vintage := none, wine_type := some "rosé", country := none,
              grape_varieties := none, alcohol_percentage := none,
              suggested_region_name := none, matched_region := none },
    confidence := ConfidenceMap.empty, raw_text := "" }

/-- The result `analyzeWineLabel` assembles for `envWtEmpty`. -/
def resWtEmpty : AnalysisResult :=
  { success := true,
    data := { name := none, vintage := none, wine_type := some "", country := none,
              grape_varieties := none, alcohol_percentage := none,
              suggested_region_name := none, matched_region := none },
    confidence := ConfidenceMap.empty, raw_text := "" }

/-! Helper lemmas about the best-tracking loop of `_find_matching_region`. -/

theorem maxScoreFrom_cons (score : Region → Nat) (s : Nat) (r : Region) (rest : List Region) :
    maxScoreFrom score s (r :: rest) = maxScoreFrom score (max s (score r)) rest := rfl

theorem le_maxScoreFrom (score : Region → Nat) (l : List Region) (s : Nat) :
    s ≤ maxScoreFrom score s l := by
  induction l generalizing s with
  | nil => exact Nat.le_refl s
  | cons r rest ih =>
      exact Nat.le_trans (Nat.le_max_left s (score r)) (ih (max s (score r)))

theorem score_le_maxScoreFrom (score : Region → Nat) (l : List Region) (s : Nat) :
    ∀ r ∈ l, score r ≤ maxScoreFrom score s l := by
  induction l generalizing s with
  | nil => intro r hr; exact absurd hr (List.not_mem_nil r)
  | cons x rest ih =>
      intro r hr
      rcases List.mem_cons.mp hr with h | h
      · subst h
        exact Nat.le_trans (Nat.le_max_right s (score r)) (le_maxScoreFrom score rest _)
      · exact ih (max s (score x)) r h

theorem exists_score_eq_of_ne (score : Region → Nat) (l : List Region) (s : Nat)
    (h : maxScoreFrom score s l ≠ s) :
    ∃ r ∈ l, score r = maxScoreFrom score s l := by
  induction l generalizing s with
  | nil => exact absurd rfl h
  | cons x rest ih =>
      rw [maxScoreFrom_cons] at h ⊢
      by_cases h2 : maxScoreFrom score (max s (score x)) rest = max s (score x)
      · rw [h2] at h ⊢
        rcases Nat.le_total (score x) s with h3 | h3
        · exact absurd (Nat.max_eq_left h3) h
        · exact ⟨x, List.mem_cons_self x rest, (Nat.max_eq_right h3).symm⟩
      · obtain ⟨r, hr, hsc⟩ := ih (max s (score x)) h2
        exact ⟨r, List.mem_cons_of_mem x hr, hsc⟩

/-- After folding the loop body over the candidates, `best_score` is the
running maximum of the scores, and `best_match` is the first candidate
attaining it (still `None` when no candidate scored above the initial 0):
a later candidate replaces the tracked best only on a strictly greater
score. -/
theorem foldl_stepBest_eq (score : Region → Nat) (l : List Region) (b : Option Region) (s : Nat) :
    l.foldl (stepBest score) (b, s)
      = ((if maxScoreFrom score s l = s then b
          else l.find? fun r => score r == maxScoreFrom score s l),
         maxScoreFrom score s l) := by
  induction l generalizing b s with
  | nil => simp [maxScoreFrom]
  | cons r rest ih =>
      rw [List.foldl_cons, maxScoreFrom_cons]
      by_cases h : s < score r
      · have hmax : max s (score r) = score r := Nat.max_eq_right (Nat.le_of_lt h)
        have hstep : stepBest score (b, s) r = (some r, score r) := by
          simp [stepBest, h]
        rw [hmax, hstep, ih]
        have hM : s < maxScoreFrom score (score r) rest :=
          Nat.lt_of_lt_of_le h (le_maxScoreFrom score rest (score r))
        have hMs : ¬ maxScoreFrom score (score r) rest = s := by omega
        rw [if_neg hMs]
        by_cases h2 : maxScoreFrom score (score r) rest = score r
        · rw [if_pos h2]
          have hp : (score r == maxScoreFrom score (score r) rest) = true := by
            rw [h2]; exact beq_self_eq_true _
          rw [@List.find?_cons_of_pos _
            (fun x => score x == maxScoreFrom score (score r) rest) r rest hp]
        · rw [if_neg h2]
          have hp : ¬ (score r == maxScoreFrom score (score r) rest) = true := by
            simp only [beq_iff_eq]
            omega
          rw [@List.find?_cons_of_neg _
            (fun x => score x == maxScoreFrom score (score r) rest) r rest hp]
      · have hle : score r ≤ s := Nat.le_of_not_lt h
        have hmax : max s (score r) = s := Nat.max_eq_left hle
        have hstep : stepBest score (b, s) r = (b, s) := by
          simp [stepBest, h]
        rw [hmax, hstep, ih]
        by_cases h2 : maxScoreFrom score s rest = s
        · rw [if_pos h2, if_pos h2]
        · rw [if_neg h2, if_neg h2]
          have hM : s < maxScoreFrom score s rest := by
            have := le_maxScoreFrom score rest s
            omega
          have hp : ¬ (score r == maxScoreFrom score s rest) = true := by
            simp only [beq_iff_eq]
            omega
          rw [@List.find?_cons_of_neg _
            (fun x => score x == maxScoreFrom score s rest) r rest hp]

theorem strTruthy_some_of_ne (s : String) (h : s ≠ "") : strTruthy (some s) = true := by
  simp [strTruthy, h]

/-- Full characterization of `_find_matching_region` on truthy name and
non-empty candidates, with the per-candidate score abstracted by its
defining equation. -/
theorem findMatchingRegion_char (sim : String → String → Nat)
    (region_name country_code : Option String) (cands : List Region)
    (score : Region → Nat)
    (hscore : score = regionScore sim (strLower (region_name.getD "")) country_code)
    (htr : strTruthy region_name = true) (hc : cands ≠ []) :
    findMatchingRegion sim region_name country_code cands
      = (if 80 ≤ maxScoreFrom score 0 cands then
          match cands.find? (fun x => score x == maxScoreFrom score 0 cands) with
          | some r => some ⟨r.id, r.name, r.country, ((maxScoreFrom score 0 cands : ℚ)) / 100⟩
          | none => none
         else none) := by
  subst hscore
  have htr2 : ¬ strTruthy region_name = false := by simp [htr]
  simp only [findMatchingRegion, if_neg htr2, if_neg hc]
  rw [foldl_stepBest_eq]
  by_cases hb0 : maxScoreFrom (regionScore sim (strLower (region_name.getD "")) country_code) 0 cands = 0
  · rw [if_pos hb0, if_neg (by omega)]
  · rw [if_neg hb0]
    rcases hfind : cands.find? (fun x =>
        regionScore sim (strLower (region_name.getD "")) country_code x
          == maxScoreFrom (regionScore sim (strLower (region_name.getD "")) country_code) 0 cands)
      with _ | r
    · by_cases hfloor : 80 ≤ maxScoreFrom (regionScore sim (strLower (region_name.getD "")) country_code) 0 cands
      · rw [if_pos hfloor]
      · rw [if_neg hfloor]
    · by_cases hfloor : 80 ≤ maxScoreFrom (regionScore sim (strLower (region_name.getD "")) country_code) 0 cands
      · rw [if_pos hfloor]
        exact if_pos hfloor
      · rw [if_neg hfloor]
        exact if_neg hfloor

/-- C1: for every non-empty suggested region name and non-empty candidate
list, `_find_matching_region` scores each candidate as the case-insensitive
similarity of the lowercased names (`regionScore`, which adds the fixed
+10 boost capped at 100 exactly when the country hint is truthy and equals
the candidate's country), and returns the best-scoring candidate — the
first among ties — with `match_score = best_score / 100.0` when the best
score reaches the floor 80, and `None` when it does not. -/
theorem resolver_scoring_and_floor (sim : String → String → Nat) (name : String)
    (country_code : Option String) (cands : List Region)
    (hname : name ≠ "") (hcands : cands ≠ []) :
    let score := regionScore sim (strLower name) country_code
    let best := maxScoreFrom score 0 cands
    (∀ r ∈ cands, score r ≤ best)
    ∧ (80 ≤ best →
        ∃ r, r ∈ cands ∧ score r = best
          ∧ cands.find? (fun x => score x == best) = some r
          ∧ findMatchingRegion sim (some name) country_code cands
              = some ⟨r.id, r.name, r.country, (best : ℚ) / 100⟩)
    ∧ (best < 80 →
        findMatchingRegion sim (some name) country_code cands = none) := by
  intro score best
  have htr : strTruthy (some name) = true := strTruthy_some_of_ne name hname
  have hunfold : findMatchingRegion sim (some name) country_code cands
      = (match cands.foldl (stepBest score) (none, 0) with
         | (some best_match, best_score) =>
             if 80 ≤ best_score then
               some ⟨best_match.id, best_match.name, best_match.country, (best_score : ℚ) / 100⟩
             else none
         | (none, _) => none) := by
    simp only [findMatchingRegion, htr, Bool.true_eq_false, if_neg, hcands]
    rfl
  rw [foldl_stepBest_eq] at hunfold
  refine ⟨score_le_maxScoreFrom score cands 0, ?_, ?_⟩
  · intro hfloor
    have hb0 : ¬ maxScoreFrom score 0 cands = 0 := by omega
    rw [if_neg hb0] at hunfold
    rcases hfind : cands.find? (fun x => score x == best) with _ | r
    · exfalso
      obtain ⟨r, hr, hsc⟩ := exists_score_eq_of_ne score cands 0 hb0
      have := List.find?_eq_none.mp hfind r hr
      simp only [beq_iff_eq] at this
      exact this hsc
    · have hmem := List.mem_of_find?_eq_some hfind
      have hsc : score r = best := by
        have := List.find?_some hfind
        simpa only [beq_iff_eq] using this
      refine ⟨r, hmem, hsc, rfl, ?_⟩
      rw [hunfold, hfind]
      exact if_pos hfloor
  · intro hfloor
    by_cases hb0 : maxScoreFrom score 0 cands = 0
    · rw [if_pos hb0] at hunfold
      rw [hunfold]
    · rw [if_neg hb0] at hunfold
      rcases hfind : cands.find? (fun x => score x == best) with _ | r
      · rw [hunfold, hfind]
      · rw [hunfold, hfind]
        exact if_neg (by omega)

/-- Witness for C1 on the spec's own example: an exact case-insensitive
match on "Bordeaux"/"FR" with a country boost saturates at 100 and is
returned with `match_score = 100 / 100`. -/
theorem resolver_scoring_and_floor_witness :
    findMatchingRegion (fun a b => if a = b then 100 else 35) (some "bordeaux") (some "FR")
      [⟨1, "Bordeaux", "FR"⟩, ⟨2, "Bordeaux Supérieur", "FR"⟩]
      = some ⟨1, "Bordeaux", "FR", ((100 : Nat) : ℚ) / 100⟩ := by
  obtain ⟨-, h, -⟩ := resolver_scoring_and_floor (fun a b => if a = b then 100 else 35)
    "bordeaux" (some "FR") [⟨1, "Bordeaux", "FR"⟩, ⟨2, "Bordeaux Supérieur", "FR"⟩]
    (by decide) (by decide)
  obtain ⟨r, -, -, hfind, hres⟩ := h (by decide)
  have hr : r = (⟨1, "Bordeaux", "FR"⟩ : Region) := by
    have : ([⟨1, "Bordeaux", "FR"⟩, ⟨2, "Bordeaux Supérieur", "FR"⟩] : List Region).find?
        (fun x => regionScore (fun a b => if a = b then 100 else 35) (strLower "bordeaux") (some "FR") x
          == maxScoreFrom (regionScore (fun a b => if a = b then 100 else 35) (strLower "bordeaux") (some "FR")) 0
              [⟨1, "Bordeaux", "FR"⟩, ⟨2, "Bordeaux Supérieur", "FR"⟩])
        = some ⟨1, "Bordeaux", "FR"⟩ := by decide
    rw [this] at hfind
    exact (Option.some.inj hfind).symm
  rw [hr] at hres
  exact hres

/-- C8: whenever `_find_matching_region` returns a match, the matched
candidate is the first in sequence order attaining the best score —
`List.find?` returns the first satisfying element, and every candidate
before the winner scores strictly lower — so equal-best ties keep the
first-encountered candidate. -/
theorem resolver_ties_keep_first (sim : String → String → Nat)
    (region_name country_code : Option String) (cands : List Region) (m : MatchedRegion)
    (score : Region → Nat) (best : Nat)
    (hscore : score = regionScore sim (strLower (region_name.getD "")) country_code)
    (hbest : best = maxScoreFrom score 0 cands)
    (h : findMatchingRegion sim region_name country_code cands = some m) :
    ∃ r : Region, cands.find? (fun x => score x == best) = some r
      ∧ m = ⟨r.id, r.name, r.country, (best : ℚ) / 100⟩
      ∧ score r = best
      ∧ ∃ pre post, cands = pre ++ r :: post ∧ ∀ x ∈ pre, score x < best := by
  subst hbest
  have htr : strTruthy region_name = true := by
    by_contra hcon
    rw [findMatchingRegion, if_pos (Bool.not_eq_true _ ▸ hcon : strTruthy region_name = false)] at h
    exact Option.noConfusion h
  have hc : cands ≠ [] := by
    intro hcon
    rw [findMatchingRegion, if_neg (by simp [htr]), if_pos hcon] at h
    exact Option.noConfusion h
  rw [findMatchingRegion_char sim region_name country_code cands score hscore htr hc] at h
  by_cases hfloor : 80 ≤ maxScoreFrom score 0 cands
  · rw [if_pos hfloor] at h
    rcases hfind : cands.find? (fun x => score x == maxScoreFrom score 0 cands) with _ | r
    · rw [hfind] at h
      exact Option.noConfusion h
    · rw [hfind] at h
      obtain ⟨hp, pre, post, hsplit, hall⟩ := List.find?_eq_some.mp hfind
      have hscr : score r = maxScoreFrom score 0 cands := by
        simpa only [beq_iff_eq] using hp
      refine ⟨r, rfl, (Option.some.inj h).symm, hscr, pre, post, hsplit, ?_⟩
      intro x hx
      have hxm : x ∈ cands := by
        rw [hsplit]
        exact List.mem_append_left _ hx
      have hle := score_le_maxScoreFrom score cands 0 x hxm
      have hne : ¬ score x = maxScoreFrom score 0 cands := by
        have hb := hall x hx
        simp only [Bool.not_eq_true'] at hb
        exact beq_eq_false_iff_ne.mp hb
      omega
  · rw [if_neg hfloor] at h
    exact Option.noConfusion h

/-- Witness for C8: two candidates tie at the same score and the
first-listed one (id 1) is the one in the returned match. -/
theorem resolver_ties_keep_first_witness :
    ∃ r : Region,
      ([⟨1, "Rioja", "ES"⟩, ⟨2, "Rioja", "ES"⟩] : List Region).find?
          (fun x => regionScore (fun _ _ => 90) "rioja" none x
            == maxScoreFrom (regionScore (fun _ _ => 90) "rioja" none) 0
                [⟨1, "Rioja", "ES"⟩, ⟨2, "Rioja", "ES"⟩]) = some r
      ∧ (⟨1, "Rioja", "ES", ((90 : Nat) : ℚ) / 100⟩ : MatchedRegion)
          = ⟨r.id, r.name, r.country,
             ((maxScoreFrom (regionScore (fun _ _ => 90) "rioja" none) 0
                [⟨1, "Rioja", "ES"⟩, ⟨2, "Rioja", "ES"⟩] : Nat) : ℚ) / 100⟩
      ∧ regionScore (fun _ _ => 90) "rioja" none r
          = maxScoreFrom (regionScore (fun _ _ => 90) "rioja" none) 0
              [⟨1, "Rioja", "ES"⟩, ⟨2, "Rioja", "ES"⟩]
      ∧ ∃ pre post,
          ([⟨1, "Rioja", "ES"⟩, ⟨2, "Rioja", "ES"⟩] : List Region) = pre ++ r :: post
          ∧ ∀ x ∈ pre, regionScore (fun _ _ => 90) "rioja" none x
              < maxScoreFrom (regionScore (fun _ _ => 90) "rioja" none) 0
                  [⟨1, "Rioja", "ES"⟩, ⟨2, "Rioja", "ES"⟩] :=
  resolver_ties_keep_first (fun _ _ => 90) (some "rioja") none
    [⟨1, "Rioja", "ES"⟩, ⟨2, "Rioja", "ES"⟩] ⟨1, "Rioja", "ES", ((90 : Nat) : ℚ) / 100⟩
    (regionScore (fun _ _ => 90) "rioja" none)
    (maxScoreFrom (regionScore (fun _ _ => 90) "rioja" none) 0
      [⟨1, "Rioja", "ES"⟩, ⟨2, "Rioja", "ES"⟩])
    rfl rfl (by rfl)

/-- C9: a falsy suggested name (`None` or `""`) or an empty candidate list
makes `_find_matching_region` return `None` immediately; the result does
not depend on the similarity function `sim`, which formalizes that no
candidate is scored on this path. -/
theorem resolver_empty_returns_none (sim : String → String → Nat)
    (region_name country_code : Option String) (cands : List Region)
    (h : strTruthy region_name = false ∨ cands = []) :
    findMatchingRegion sim region_name country_code cands = none := by
  rcases h with h | h
  · rw [findMatchingRegion, if_pos h]
  · rw [findMatchingRegion]
    by_cases htr : strTruthy region_name = false
    · rw [if_pos htr]
    · rw [if_neg htr, if_pos h]

/-- Witness for C9: a `None` name against a non-empty catalog, an empty
name against a non-empty catalog, and a truthy name against an empty
catalog all resolve to `None`. -/
theorem resolver_empty_returns_none_witness :
    findMatchingRegion (fun _ _ => 100) none (some "FR") [⟨1, "Bordeaux", "FR"⟩] = none
    ∧ findMatchingRegion (fun _ _ => 100) (some "") (some "FR") [⟨1, "Bordeaux", "FR"⟩] = none
    ∧ findMatchingRegion (fun _ _ => 100) (some "Bordeaux") (some "FR") [] = none :=
  ⟨resolver_empty_returns_none (fun _ _ => 100) none (some "FR") [⟨1, "Bordeaux", "FR"⟩]
      (Or.inl (by decide)),
   resolver_empty_returns_none (fun _ _ => 100) (some "") (some "FR") [⟨1, "Bordeaux", "FR"⟩]
      (Or.inl (by decide)),
   resolver_empty_returns_none (fun _ _ => 100) (some "Bordeaux") (some "FR") []
      (Or.inr rfl)⟩

/-- C7: `_resize_image` leaves the dimensions unchanged when both are
within `max_size`; otherwise both output dimensions are at most
`max_size`, the longer output side equals `max_size`, and the other side
is the original side scaled by the same ratio truncated to an integer
(the two product inequalities pin it as the exact floor, i.e. the aspect
ratio is preserved within integer rounding). -/
theorem resize_dims_spec (d : Dim) (m : Nat)
    (hw : 0 < d.width) (hh : 0 < d.height) :
    (d.width ≤ m ∧ d.height ≤ m → resizeDims d m = d)
    ∧ (¬ (d.width ≤ m ∧ d.height ≤ m) →
        (resizeDims d m).width ≤ m ∧ (resizeDims d m).height ≤ m
        ∧ max (resizeDims d m).width (resizeDims d m).height = m
        ∧ (d.height < d.width →
            (resizeDims d m).width = m
            ∧ d.width * (resizeDims d m).height ≤ d.height * m
            ∧ d.height * m < d.width * ((resizeDims d m).height + 1))
        ∧ (d.width ≤ d.height →
            (resizeDims d m).height = m
            ∧ d.height * (resizeDims d m).width ≤ d.width * m
            ∧ d.width * m < d.height * ((resizeDims d m).width + 1))) := by
  constructor
  · intro hin
    rw [resizeDims, if_pos hin]
  · intro hout
    by_cases hcmp : d.height < d.width
    · have hres : resizeDims d m = { width := m, height := d.height * m / d.width } := by
        rw [resizeDims, if_neg hout, if_pos hcmp]
      rw [hres]
      have hhle : d.height * m / d.width ≤ m := by
        have hstep : d.height * m / d.width ≤ d.width * m / d.width :=
          Nat.div_le_div_right (Nat.mul_le_mul_right m (Nat.le_of_lt hcmp))
        have hcancel : d.width * m / d.width = m := Nat.mul_div_cancel_left m hw
        omega
      have hfloor1 : d.width * (d.height * m / d.width) ≤ d.height * m := by
        rw [Nat.mul_comm]
        exact Nat.div_mul_le_self _ _
      have hfloor2 : d.height * m < d.width * (d.height * m / d.width + 1) := by
        have h1 := Nat.div_add_mod (d.height * m) d.width
        have h2 := Nat.mod_lt (d.height * m) hw
        calc d.height * m
            = d.width * (d.height * m / d.width) + d.height * m % d.width := h1.symm
          _ < d.width * (d.height * m / d.width) + d.width := Nat.add_lt_add_left h2 _
          _ = d.width * (d.height * m / d.width + 1) := by ring
      exact ⟨Nat.le_refl m, hhle, Nat.max_eq_left hhle,
        fun _ => ⟨rfl, hfloor1, hfloor2⟩,
        fun hcon => absurd hcon (by omega)⟩
    · have hwh : d.width ≤ d.height := Nat.le_of_not_lt hcmp
      have hres : resizeDims d m = { width := d.width * m / d.height, height := m } := by
        rw [resizeDims, if_neg hout, if_neg hcmp]
      rw [hres]
      have hwle : d.width * m / d.height ≤ m := by
        have hstep : d.width * m / d.height ≤ d.height * m / d.height :=
          Nat.div_le_div_right (Nat.mul_le_mul_right m hwh)
        have hcancel : d.height * m / d.height = m := Nat.mul_div_cancel_left m hh
        omega
      have hfloor1 : d.height * (d.width * m / d.height) ≤ d.width * m := by
        rw [Nat.mul_comm]
        exact Nat.div_mul_le_self _ _
      have hfloor2 : d.width * m < d.height * (d.width * m / d.height + 1) := by
        have h1 := Nat.div_add_mod (d.width * m) d.height
        have h2 := Nat.mod_lt (d.width * m) hh
        calc d.width * m
            = d.height * (d.width * m / d.height) + d.width * m % d.height := h1.symm
          _ < d.height * (d.width * m / d.height) + d.height := Nat.add_lt_add_left h2 _
          _ = d.height * (d.width * m / d.height + 1) := by ring
      exact ⟨hwle, Nat.le_refl m, Nat.max_eq_right hwle,
        fun hcon => absurd hcon (by omega),
        fun _ => ⟨rfl, hfloor1, hfloor2⟩⟩

/-- Witness for C7: a 2000×1000 image resized with the default maximum
1024 becomes 1024×512; an 800×600 image is returned unchanged. -/
theorem resize_dims_spec_witness :
    resizeDims ⟨2000, 1000⟩ 1024 = ⟨1024, 512⟩
    ∧ (resizeDims ⟨2000, 1000⟩ 1024).width ≤ 1024
    ∧ (resizeDims ⟨2000, 1000⟩ 1024).height ≤ 1024
    ∧ resizeDims ⟨800, 600⟩ 1024 = ⟨800, 600⟩ :=
  ⟨by decide,
   ((resize_dims_spec ⟨2000, 1000⟩ 1024 (by decide) (by decide)).2 (by decide)).1,
   ((resize_dims_spec ⟨2000, 1000⟩ 1024 (by decide) (by decide)).2 (by decide)).2.1,
   (resize_dims_spec ⟨800, 600⟩ 1024 (by decide) (by decide)).1 (by decide)⟩

/-- C2: when the uploaded bytes do not decode as a valid image,
`analyze_wine_label` fails with the invalid-image `LabelAnalysisError`
and the upstream request count is 0: the failure short-circuits before
any external call. -/
theorem invalid_image_short_circuits (env : AnalyzeEnv) (h : env.decoded = false) :
    analyzeWineLabel env
      = (Except.error ⟨ExcClass.labelAnalysisError,
          "Invalid image format. Supported formats: JPEG, PNG, WebP"⟩, 0) := by
  rw [analyzeWineLabel, if_pos h]

/-- Witness for C2 at a concrete invocation with an undecodable upload. -/
theorem invalid_image_short_circuits_witness :
    analyzeWineLabel envBadImage
      = (Except.error ⟨ExcClass.labelAnalysisError,
          "Invalid image format. Supported formats: JPEG, PNG, WebP"⟩, 0) :=
  invalid_image_short_circuits envBadImage rfl

/-- C3 counterexample: rate limiting, connectivity failure and a generic
upstream error are all raised as the single class `LabelAnalysisError` —
there is no `UpstreamThrottled` (or other) subtype, so the three failures
are not distinguishable by kind, only by message text. -/
theorem inference_error_kinds_collapse :
    (callOpenaiVision (some "key") UpstreamOutcome.rateLimit (fun _ => none)).1
        = Except.error ⟨ExcClass.labelAnalysisError,
            "AI service rate limit exceeded. Please try again later."⟩
    ∧ (callOpenaiVision (some "key") UpstreamOutcome.connectionError (fun _ => none)).1
        = Except.error ⟨ExcClass.labelAnalysisError, "AI service temporarily unavailable"⟩
    ∧ (callOpenaiVision (some "key") (UpstreamOutcome.apiError "boom") (fun _ => none)).1
        = Except.error ⟨ExcClass.labelAnalysisError, "AI service error occurred"⟩ :=
  ⟨rfl, rfl, rfl⟩

/-- C3 (amended): every failure of `_call_openai_vision` surfaces as an
error of the one class `LabelAnalysisError` (uncategorized exceptions are
wrapped with an "Unexpected error: " prefix, never leaked raw); the
rate-limit, connectivity and upstream-error failures carry fixed, pairwise
distinct message texts — distinguishable by message only, not by kind. -/
theorem inference_error_surface (apiKey : Option String) (outcome : UpstreamOutcome)
    (parseJson : String → Option AiResponse) (e : PyError)
    (h : (callOpenaiVision apiKey outcome parseJson).1 = Except.error e) :
    e.cls = ExcClass.labelAnalysisError
    ∧ (strTruthy apiKey = true →
        (outcome = UpstreamOutcome.rateLimit →
          e.msg = "AI service rate limit exceeded. Please try again later.")
        ∧ (outcome = UpstreamOutcome.connectionError →
          e.msg = "AI service temporarily unavailable")
        ∧ (∀ s, outcome = UpstreamOutcome.apiError s → e.msg = "AI service error occurred")
        ∧ (∀ s, outcome = UpstreamOutcome.otherError s → e.msg = "Unexpected error: " ++ s)) := by
  by_cases hkey : strTruthy apiKey = false
  · rw [callOpenaiVision.eq_def, if_pos hkey] at h
    have he : (⟨ExcClass.labelAnalysisError, "OpenAI API key not configured"⟩ : PyError) = e :=
      Except.error.inj h
    subst he
    exact ⟨rfl, fun htrue => absurd htrue (by simp [hkey])⟩
  · rw [callOpenaiVision.eq_def, if_neg hkey] at h
    cases outcome with
    | success content =>
        simp only [] at h
        by_cases hct : strTruthy content = false
        · rw [if_pos hct] at h
          have he : (⟨ExcClass.labelAnalysisError,
              "Unexpected error: Empty response from AI service"⟩ : PyError) = e :=
            Except.error.inj h
          subst he
          exact ⟨rfl, fun _ => by simp⟩
        · rw [if_neg hct] at h
          rcases hp : parseJson (stripCodeFences (content.getD "")) with _ | resp
          · rw [hp] at h
            have he : (⟨ExcClass.labelAnalysisError, "Could not parse AI response"⟩ : PyError) = e :=
              Except.error.inj h
            subst he
            exact ⟨rfl, fun _ => by simp⟩
          · rw [hp] at h
            exact Except.noConfusion h
    | rateLimit =>
        have he : (⟨ExcClass.labelAnalysisError,
            "AI service rate limit exceeded. Please try again later."⟩ : PyError) = e :=
          Except.error.inj h
        subst he
        exact ⟨rfl, fun _ => by simp⟩
    | connectionError =>
        have he : (⟨ExcClass.labelAnalysisError, "AI service temporarily unavailable"⟩ : PyError) = e :=
          Except.error.inj h
        subst he
        exact ⟨rfl, fun _ => by simp⟩
    | apiError s =>
        have he : (⟨ExcClass.labelAnalysisError, "AI service error occurred"⟩ : PyError) = e :=
          Except.error.inj h
        subst he
        refine ⟨rfl, fun _ => ⟨by simp, by simp, fun t ht => rfl, by simp⟩⟩
    | otherError s =>
        have he : (⟨ExcClass.labelAnalysisError, "Unexpected error: " ++ s⟩ : PyError) = e :=
          Except.error.inj h
        subst he
        refine ⟨rfl, fun _ => ⟨by simp, by simp, by simp, fun t ht => ?_⟩⟩
        rw [UpstreamOutcome.otherError.inj ht]

/-- Witness for C3 (amended) at the rate-limit outcome. -/
theorem inference_error_surface_witness :
    (⟨ExcClass.labelAnalysisError,
        "AI service rate limit exceeded. Please try again later."⟩ : PyError).cls
      = ExcClass.labelAnalysisError
    ∧ (⟨ExcClass.labelAnalysisError,
        "AI service rate limit exceeded. Please try again later."⟩ : PyError).msg
      = "AI service rate limit exceeded. Please try again later." := by
  have h := inference_error_surface (some "key") UpstreamOutcome.rateLimit (fun _ => none)
    ⟨ExcClass.labelAnalysisError, "AI service rate limit exceeded. Please try again later."⟩ rfl
  exact ⟨h.1, (h.2 rfl).1 rfl⟩

/-- C4 counterexample: a response whose `wine_type` is the empty string —
present in the response and not one of {red, white, rosé, sparkling} — is
not coerced to `None`: Python's `if data["wine_type"]` is false for `""`,
so the validation is skipped and the final result keeps `wine_type = ""`
where the claim requires null. -/
theorem wine_type_empty_string_kept :
    analyzeWineLabel envWtEmpty = (Except.ok resWtEmpty, 1)
    ∧ resWtEmpty.data.wine_type = some ""
    ∧ validTypes.contains "" = false
    ∧ resWtEmpty.data.wine_type ≠ none :=
  ⟨rfl, rfl, by decide, by decide⟩

/-- C4 (amended): a present, non-empty `wine_type` outside the allowed
enumeration is coerced to `None` in the final result while `success`
remains `true` (a present empty-string value is passed through unchanged,
per the counterexample; a bad enum value never fails the analysis). -/
theorem wine_type_invalid_nonempty_coerced (env : AnalyzeEnv) (resp : AiResponse) (s : String)
    (hdec : env.decoded = true)
    (hcall : (callOpenaiVision env.apiKey env.outcome env.parseJson).1 = Except.ok resp)
    (hwt : resp.wine_type = some s) (hne : s ≠ "") (hinv : validTypes.contains s = false) :
    ∃ res n, analyzeWineLabel env = (Except.ok res, n)
      ∧ res.success = true ∧ res.data.wine_type = none := by
  rcases hc : callOpenaiVision env.apiKey env.outcome env.parseJson with ⟨x, n⟩
  rw [hc] at hcall
  replace hcall : x = Except.ok resp := hcall
  subst hcall
  rw [analyzeWineLabel.eq_def, if_neg (by simp [hdec]), hc]
  refine ⟨_, n, rfl, rfl, ?_⟩
  show (if strTruthy resp.wine_type && !(validTypes.contains (resp.wine_type.getD "")) then
      none else resp.wine_type) = none
  rw [hwt]
  have h1 : strTruthy (some s) = true := strTruthy_some_of_ne s hne
  have hnm : s ∉ validTypes := by simpa using hinv
  simp [h1, hnm]

/-- Witness for C4 (amended): the unaccented "rose" is coerced to null
while the analysis stays successful. -/
theorem wine_type_invalid_nonempty_coerced_witness :
    ∃ res n, analyzeWineLabel envRoseNoAccent = (Except.ok res, n)
      ∧ res.success = true ∧ res.data.wine_type = none :=
  wine_type_invalid_nonempty_coerced envRoseNoAccent respRoseNoAccent "rose"
    rfl rfl rfl (by decide) (by decide)

/-- Per-field defaulting of the confidence serializer: a missing entry
serializes to the declared default 0.0. -/
theorem serializeConfidence_get_zero (c : ConfidenceMap) (f : ConfField)
    (h : ConfidenceMap.get c f = none) :
    SerializedConfidence.get (serializeConfidence c) f = 0 := by
  cases f <;> simp_all [ConfidenceMap.get, SerializedConfidence.get, serializeConfidence]

/-- C5: in the result a successful `analyze_wine_label` run hands to the
boundary, the confidence of every one of the seven fields whose entry the
model omitted — including when the whole confidence object is absent —
serializes to 0.0: the pipeline passes `ai_response.get("confidence", {})`
through unchanged and `LabelAnalysisConfidenceSerializer` applies the
`default=0.0` of each missing field. -/
theorem confidence_missing_defaults_zero (env : AnalyzeEnv) (resp : AiResponse)
    (res : AnalysisResult) (n : Nat) (f : ConfField)
    (hdec : env.decoded = true)
    (hcall : (callOpenaiVision env.apiKey env.outcome env.parseJson).1 = Except.ok resp)
    (hres : analyzeWineLabel env = (Except.ok res, n))
    (homit : ConfidenceMap.get (resp.confidence.getD ConfidenceMap.empty) f = none) :
    SerializedConfidence.get (serializeConfidence res.confidence) f = 0 := by
  rcases hc : callOpenaiVision env.apiKey env.outcome env.parseJson with ⟨x, n2⟩
  rw [hc] at hcall
  replace hcall : x = Except.ok resp := hcall
  subst hcall
  rw [analyzeWineLabel.eq_def, if_neg (by simp [hdec]), hc] at hres
  have h1 := congrArg Prod.fst hres
  have h2 := Except.ok.inj h1
  have hconf : res.confidence = resp.confidence.getD ConfidenceMap.empty :=
    congrArg AnalysisResult.confidence h2.symm
  rw [hconf]
  exact serializeConfidence_get_zero _ f homit

/-- Witness for C5: the model omitted the whole confidence object; the
serialized vintage confidence is 0. -/
theorem confidence_missing_defaults_zero_witness :
    SerializedConfidence.get (serializeConfidence resWtEmpty.confidence) ConfField.vintage = 0 :=
  confidence_missing_defaults_zero envWtEmpty respWtEmpty resWtEmpty 1 ConfField.vintage
    rfl rfl rfl rfl

/-- C6 counterexample: the invalid-image failure is a `LabelAnalysisError`
like every other pipeline failure, so the view's `except
LabelAnalysisError` clause answers 422 (unprocessable), not the
bad-request status the claim requires for it; 400 is reserved for a
request without an image file. -/
theorem invalid_image_maps_to_unprocessable :
    analyzeLabelView true envBadImage
      = (HttpStatus.unprocessable422,
         RespBody.errorBody "Invalid image format. Supported formats: JPEG, PNG, WebP")
    ∧ HttpStatus.unprocessable422 ≠ HttpStatus.badRequest400 :=
  ⟨rfl, by decide⟩

/-- C6 (amended): the view maps a request without an image file to
bad-request (400); every `LabelAnalysisError` — including the
invalid-image failure — to unprocessable (422) with the error's message;
and any other exception, such as the response serializer's validation
failure, to internal-error (500) whose body is a fixed generic message
that does not expose the exception text. -/
theorem boundary_status_mapping (hasImage : Bool) (env : AnalyzeEnv) :
    (hasImage = false →
      analyzeLabelView hasImage env
        = (HttpStatus.badRequest400,
           RespBody.errorBody "No image provided. Please upload an image file."))
    ∧ (∀ e, hasImage = true → (analyzeWineLabel env).1 = Except.error e →
        e.cls = ExcClass.labelAnalysisError →
        analyzeLabelView hasImage env
          = (HttpStatus.unprocessable422, RespBody.errorBody e.msg))
    ∧ (∀ e, hasImage = true → (analyzeWineLabel env).1 = Except.error e →
        ¬ e.cls = ExcClass.labelAnalysisError →
        analyzeLabelView hasImage env
          = (HttpStatus.internalError500, RespBody.errorBody unexpectedFailureMsg))
    ∧ (∀ res, hasImage = true → (analyzeWineLabel env).1 = Except.ok res →
        validateResult res = false →
        analyzeLabelView hasImage env
          = (HttpStatus.internalError500, RespBody.errorBody unexpectedFailureMsg)) := by
  refine ⟨?_, ?_, ?_, ?_⟩
  · intro h
    rw [analyzeLabelView, if_pos h]
  · intro e him he hcls
    rw [analyzeLabelView, if_neg (by simp [him]), he]
    exact if_pos hcls
  · intro e him he hcls
    rw [analyzeLabelView, if_neg (by simp [him]), he]
    exact if_neg hcls
  · intro res him hok hval
    rw [analyzeLabelView, if_neg (by simp [him]), hok]
    exact if_neg (by simp [hval])

/-- Witness for C6 (amended): a missing image file gives 400; an
undecodable image gives 422 with the invalid-image message; a result the
response serializer rejects gives 500 with the generic message. -/
theorem boundary_status_mapping_witness :
    analyzeLabelView false envBadImage
      = (HttpStatus.badRequest400,
         RespBody.errorBody "No image provided. Please upload an image file.")
    ∧ analyzeLabelView true envBadImage
      = (HttpStatus.unprocessable422,
         RespBody.errorBody "Invalid image format. Supported formats: JPEG, PNG, WebP")
    ∧ analyzeLabelView true envRose
      = (HttpStatus.internalError500, RespBody.errorBody unexpectedFailureMsg) :=
  ⟨(boundary_status_mapping false envBadImage).1 rfl,
   (boundary_status_mapping true envBadImage).2.1
     ⟨ExcClass.labelAnalysisError, "Invalid image format. Supported formats: JPEG, PNG, WebP"⟩
     rfl rfl rfl,
   (boundary_status_mapping true envRose).2.2.2 resRose rfl rfl (by decide)⟩

/-- C10: whenever the pipeline result carries the properly accented
`wine_type = "rosé"` (which `analyze_wine_label` accepts, since its own
`valid_types` list has the real accent), the response serializer rejects
it — its choice list holds the mojibake string "ros√©", not "rosé" — the
`ValidationError` escapes the `except LabelAnalysisError` clause, and the
endpoint answers internal-error 500 with the generic message instead of
the successful payload. -/
theorem rose_rejected_at_boundary (env : AnalyzeEnv) (res : AnalysisResult) (n : Nat)
    (hres : analyzeWineLabel env = (Except.ok res, n))
    (hwt : res.data.wine_type = some "rosé") :
    serializerWineTypeChoices.contains "rosé" = false
    ∧ validTypes.contains "rosé" = true
    ∧ validateResult res = false
    ∧ analyzeLabelView true env
        = (HttpStatus.internalError500, RespBody.errorBody unexpectedFailureMsg) := by
  have hval : validateResult res = false := by
    simp [validateResult, dataSerializerValid, hwt, wineTypeChoiceValid, serializerWineTypeChoices]
  refine ⟨by decide, by decide, hval, ?_⟩
  have hok : (analyzeWineLabel env).1 = Except.ok res := by rw [hres]
  rw [analyzeLabelView, if_neg (by simp), hok]
  exact if_neg (by simp [hval])

/-- Witness for C10: a run extracting "rosé" ends in the 500 response. -/
theorem rose_rejected_at_boundary_witness :
    analyzeLabelView true envRose
      = (HttpStatus.internalError500, RespBody.errorBody unexpectedFailureMsg) :=
  (rose_rejected_at_boundary envRose resRose 1 rfl rfl).2.2.2

end Cellarium
